import Mathlib

/-!
# Verification of the hybrid text-quality analysis engine

Shallow embedding of the `AITextAssistant` class (file `src/unnamed/part_000`)
of the Registrodeocorrencias repository.  All definitions are translated from
the JavaScript source; machine arithmetic is modelled over `Nat`/`Int`/`ℚ`
(JavaScript numbers are modelled as exact rationals).  Character-level string
operations are modelled on `List Char`; the JavaScript lower-casing and
whitespace classes are modelled for the ASCII range plus the accented
Latin-1 letters that occur in the source's dictionaries and patterns.
-/

/-- JavaScript `\w` character class (ASCII word characters); used by the
source's `replace(/[^\w]/g, '')` normalisation and by the `\b` regex
boundary.  Accented letters are (faithfully) NOT word characters. -/
def isWordChar (c : Char) : Bool :=
  ('a' ≤ c && c ≤ 'z') || ('A' ≤ c && c ≤ 'Z') || ('0' ≤ c && c ≤ '9') || c = '_'

/-- JavaScript `\s` whitespace class, restricted to the ASCII whitespace
characters (the only ones exercised by the claims). -/
def isSpaceJs (c : Char) : Bool :=
  c = ' ' || c = '\t' || c = '\n' || c = '\r' || c = '\x0b' || c = '\x0c'

/-- JavaScript `String.prototype.toLowerCase`, modelled character-wise for
ASCII letters and the uppercase accented letters of the target language. -/
def toLowerJs (c : Char) : Char :=
  if 'A' ≤ c && c ≤ 'Z' then Char.ofNat (c.toNat + 32)
  else if c = 'À' then 'à' else if c = 'Á' then 'á' else if c = 'Â' then 'â'
  else if c = 'Ã' then 'ã' else if c = 'Ç' then 'ç' else if c = 'É' then 'é'
  else if c = 'Ê' then 'ê' else if c = 'Í' then 'í' else if c = 'Ó' then 'ó'
  else if c = 'Ô' then 'ô' else if c = 'Õ' then 'õ' else if c = 'Ú' then 'ú'
  else c

/-- Lower-case every character, as `text.toLowerCase()` does. -/
def jsLower (s : List Char) : List Char := s.map toLowerJs

/-- `word.replace(/[^\w]/g, '')`: strip every non-word character. -/
def cleanWord (s : List Char) : List Char := s.filter isWordChar

/-- `text.split(/\s+/)`: split on maximal whitespace runs.  Like the
JavaScript original, a leading (resp. trailing) whitespace run produces a
leading (resp. trailing) empty token.  `acc` is the (reversed) pending
token; `inRun` records that the previous character was whitespace, so a
whole run yields a single separator. -/
def splitWsGo : List Char → List Char → Bool → List (List Char)
  | [], acc, _ => [acc.reverse]
  | c :: rest, acc, inRun =>
    if isSpaceJs c then
      if inRun then splitWsGo rest [] true
      else acc.reverse :: splitWsGo rest [] true
    else splitWsGo rest (c :: acc) false

/-- Whitespace tokenisation of a character list. -/
def splitWs (s : List Char) : List (List Char) := splitWsGo s [] false

/-- Whether the pattern occurs as a contiguous substring of the haystack
(`String.prototype.includes`). -/
def startsWithL : List Char → List Char → Bool
  | [], _ => true
  | _ :: _, [] => false
  | a :: as, b :: bs => a = b && startsWithL as bs

/-- `hay.includes(pat)` for character lists. -/
def containsSub (hay pat : List Char) : Bool :=
  (List.range (hay.length + 1)).any (fun i => startsWithL pat (hay.drop i))

/-! ## Lexical Corrector (`checkBasicSpelling`, source lines 65-82) -/

/-- The fixed dictionary `this.spellCorrections` (source lines 14-28),
including the self-mapping entries. -/
def spellCorrections : List (List Char × List Char) :=
  [("vazamento".data, "vazamento".data),
   ("entupimento".data, "entupimento".data),
   ("quebrado".data, "danificado".data),
   ("ruim".data, "em más condições".data),
   ("muito".data, "significativamente".data),
   ("bem".data, "adequadamente".data),
   ("mal".data, "inadequadamente".data),
   ("defeituoso".data, "com defeito".data),
   ("estragado".data, "danificado".data),
   ("furado".data, "perfurado".data),
   ("rachado".data, "com fissuras".data),
   ("solto".data, "desencaixado".data),
   ("apertado".data, "com folga insuficiente".data)]

/-- Property lookup `this.spellCorrections[cleanWord]`. -/
def spellLookup (k : List Char) : Option (List Char) :=
  (spellCorrections.find? (fun p => p.1 = k)).map (fun p => p.2)

/-- One entry of the corrections array built by `checkBasicSpelling`.
The `type` field is the constant string tag from the source. -/
structure SpellingCorrection where
  original : String
  suggestion : String
  position : Nat
  type : String
deriving DecidableEq, Repr

/-- The `words.forEach((word, index) => ...)` loop of `checkBasicSpelling`:
`i` is the index of the first word of `ws` in the full token list.  A
correction is pushed when the dictionary value of the cleaned word is
truthy (non-empty) and differs from the cleaned word. -/
def spellAux : Nat → List (List Char) → List SpellingCorrection
  | _, [] => []
  | i, w :: rest =>
    match spellLookup (cleanWord w) with
    | some v =>
      if v ≠ [] ∧ v ≠ cleanWord w then
        ⟨String.mk w, String.mk v, i, "spelling"⟩ :: spellAux (i + 1) rest
      else
        spellAux (i + 1) rest
    | none => spellAux (i + 1) rest

/-- `checkBasicSpelling(text)` (source lines 65-82).  Note that the source
lower-cases the whole text BEFORE splitting, so every token — including the
`original` field of each emitted correction — is already lower-cased. -/
def checkBasicSpelling (text : String) : List SpellingCorrection :=
  spellAux 0 (splitWs (jsLower text.data))

/-! ## Clarity Diagnostics (`analyzeClarityBasic`, source lines 108-164) -/

/-- One clarity issue record. -/
structure ClarityIssue where
  type : String
  severity : String
  message : String
  suggestion : String
deriving DecidableEq, Repr

/-- The length issue (source lines 112-119). -/
def lengthIssue : ClarityIssue :=
  ⟨"length", "medium",
   "Descrição muito curta. Adicione mais detalhes sobre o problema.",
   "Inclua informações sobre quando foi observado, extensão do problema e possíveis causas."⟩

/-- The punctuation issue (source lines 122-129). -/
def punctuationIssue : ClarityIssue :=
  ⟨"punctuation", "low",
   "Considere dividir o texto em frases menores.",
   "Use pontos para separar ideias e melhorar a legibilidade."⟩

/-- The vague-wording issue (source lines 134-141). -/
def vagueIssue : ClarityIssue :=
  ⟨"vague", "medium",
   "Evite palavras vagas como \"coisa\", \"negócio\", etc.",
   "Seja específico sobre os objetos e situações mencionados."⟩

/-- The repetition issue (source lines 154-160); the message embeds the
comma-separated list of repeated words. -/
def repetitionIssue (ws : List String) : ClarityIssue :=
  ⟨"repetition", "low",
   "Palavras repetidas: " ++ String.intercalate ", " ws,
   "Use sinônimos para evitar repetições excessivas."⟩

/-- The fixed vague-word list (source line 132). -/
def vagueWords : List String := ["coisa", "negócio", "troço", "isso", "aquilo"]

/-- `vagueWords.some(word => text.toLowerCase().includes(word))`: a pure
substring test, not a whole-token test. -/
def hasVagueWords (text : String) : Bool :=
  vagueWords.any (fun w => containsSub (jsLower text.data) w.data)

/-- Increment the count of key `k` in an insertion-ordered association
list, mirroring a JavaScript object used as a counter (non-numeric keys
keep insertion order). -/
def bumpCount (m : List (List Char × Nat)) (k : List Char) : List (List Char × Nat) :=
  if m.any (fun p => p.1 = k) then
    m.map (fun p => if p.1 = k then (p.1, p.2 + 1) else p)
  else m ++ [(k, 1)]

/-- The `wordCount` object of `analyzeClarityBasic` (source lines 144-151):
count cleaned tokens longer than 3 characters. -/
def wordCounts (ws : List (List Char)) : List (List Char × Nat) :=
  ws.foldl (fun m w =>
    let cw := cleanWord w
    if 3 < cw.length then bumpCount m cw else m) []

/-- The repeated words: cleaned tokens appearing more than twice
(source line 153). -/
def repeatedWords (text : String) : List (List Char) :=
  ((wordCounts (splitWs (jsLower text.data))).filter (fun p => 2 < p.2)).map (fun p => p.1)

/-- `analyzeClarityBasic(text)` (source lines 108-164): the four
independent structural checks, in the fixed order
length, punctuation, vague, repetition. -/
def analyzeClarityBasic (text : String) : List ClarityIssue :=
  (if text.data.length < 20 then [lengthIssue] else [])
  ++ (if 50 < text.data.length && !(text.data.contains '.')
        && !(text.data.contains '!') && !(text.data.contains '?')
      then [punctuationIssue] else [])
  ++ (if hasVagueWords text then [vagueIssue] else [])
  ++ (if (repeatedWords text).isEmpty then []
      else [repetitionIssue ((repeatedWords text).map String.mk)])

/-! ## Pattern Rewriter (`applyTechnicalPatterns`, source lines 87-103)

The four source regexes use only literals, the classes `[ao]`, an optional
`s?`, alternation, `\s+` and the word boundary `\b`, always with the `i`
flag.  They are modelled by the small regex syntax `Rx` below; `matchEnds`
returns the possible match ends at a position in JavaScript backtracking
preference order (first alternative first, greedy quantifiers longest
first), so its head is the end the JavaScript engine selects. -/

inductive Rx where
  | eps
  | ch (c : Char)
  | cls (cs : List Char)
  | wsPlus
  | wb
  | seq (a b : Rx)
  | alt (a b : Rx)
  | opt (a : Rx)
deriving Repr

/-- Whether position `i` of `s` holds a word character (out of range counts
as a non-word position, as at the ends of a JavaScript string). -/
def wordAt (s : List Char) (i : Nat) : Bool :=
  match s.get? i with
  | some c => isWordChar c
  | none => false

/-- Word boundary at position `i`: the word-ness differs between the
previous position and the current one. -/
def boundaryAt (s : List Char) (i : Nat) : Bool :=
  (if i = 0 then false else wordAt s (i - 1)) != wordAt s i

/-- All ends of a match of `r` starting at position `i` of `s`, in
JavaScript backtracking preference order.  Literals and classes compare
case-insensitively (the `i` flag). -/
def matchEnds : Rx → List Char → Nat → List Nat
  | .eps, _, i => [i]
  | .ch c, s, i =>
    match s.get? i with
    | some d => if toLowerJs d = toLowerJs c then [i + 1] else []
    | none => []
  | .cls cs, s, i =>
    match s.get? i with
    | some d => if cs.contains (toLowerJs d) then [i + 1] else []
    | none => []
  | .wsPlus, s, i =>
    let n := ((s.drop i).takeWhile isSpaceJs).length
    (List.range n).map (fun k => i + n - k)
  | .wb, s, i => if boundaryAt s i then [i] else []
  | .seq a b, s, i => (matchEnds a s i).flatMap (fun j => matchEnds b s j)
  | .alt a b, s, i => matchEnds a s i ++ matchEnds b s i
  | .opt a, s, i => matchEnds a s i ++ [i]

/-- `regex.test(text)`: a match starts at some position of the text.
(Within one call of `applyTechnicalPatterns` the `lastIndex` of each
global regex is 0 when `test` runs — a failing `test` resets it and a
successful `test` is followed by a global `replace`, which resets it —
so `test` is faithfully position-independent here.) -/
def rxTest (r : Rx) (s : List Char) : Bool :=
  (List.range (s.length + 1)).any (fun i => !(matchEnds r s i).isEmpty)

/-- Global `String.prototype.replace`: scan left to right; at a match,
emit the (literal) replacement and resume at the match end.  All four
source patterns only match non-empty spans.  Fuel is the remaining scan
length. -/
def rxReplAux (r : Rx) (rep : List Char) (s : List Char) : Nat → Nat → List Char
  | 0, _ => []
  | fuel + 1, i =>
    match s.get? i with
    | none => []
    | some c =>
      match (matchEnds r s i).head? with
      | some j =>
        if i < j then rep ++ rxReplAux r rep s fuel j
        else c :: rxReplAux r rep s fuel (i + 1)
      | none => c :: rxReplAux r rep s fuel (i + 1)

/-- `text.replace(pattern, replacement)` with the `g` flag. -/
def rxReplace (r : Rx) (rep : List Char) (s : List Char) : List Char :=
  rxReplAux r rep s (s.length + 1) 0

/-- Sequence a list of regex pieces. -/
def rseq (l : List Rx) : Rx := l.foldr Rx.seq Rx.eps

/-- A case-insensitive literal. -/
def rlit (s : String) : Rx := rseq (s.data.map Rx.ch)

/-- One rewrite rule: regex, its source text, replacement, rationale. -/
structure TechPattern where
  pat : Rx
  patSrc : String
  replacement : String
  suggestion : String

/-- Rule 1: `/\b(quebr[ao]d[ao]s?)\b/gi` (source lines 32-36). -/
def tp1 : TechPattern :=
  ⟨rseq [.wb, rlit "quebr", .cls ['a', 'o'], .ch 'd', .cls ['a', 'o'], .opt (.ch 's'), .wb],
   "\\b(quebr[ao]d[ao]s?)\\b", "danificado(s)",
   "Use \"danificado\" em vez de \"quebrado\" para maior precisão técnica."⟩

/-- Rule 2: `/\b(muito|bem)\s+/gi` (source lines 37-41). -/
def tp2 : TechPattern :=
  ⟨rseq [.wb, .alt (rlit "muito") (rlit "bem"), .wsPlus],
   "\\b(muito|bem)\\s+", "",
   "Evite advérbios vagos. Seja mais específico sobre a intensidade ou qualidade."⟩

/-- Rule 3: `/\b(ruim|péssim[ao]s?)\b/gi` (source lines 42-46). -/
def tp3 : TechPattern :=
  ⟨rseq [.wb, .alt (rlit "ruim") (rseq [rlit "péssim", .cls ['a', 'o'], .opt (.ch 's')]), .wb],
   "\\b(ruim|péssim[ao]s?)\\b", "em condições inadequadas",
   "Descreva especificamente o que está inadequado."⟩

/-- Rule 4: `/\b(não funciona|não está funcionando)\b/gi` (source lines 47-51). -/
def tp4 : TechPattern :=
  ⟨rseq [.wb, .alt (rlit "não funciona") (rlit "não está funcionando"), .wb],
   "\\b(não funciona|não está funcionando)\\b", "apresenta falha operacional",
   "Seja mais específico sobre o tipo de falha."⟩

/-- `this.technicalPatterns` (source lines 31-52), in source order. -/
def technicalPatterns : List TechPattern := [tp1, tp2, tp3, tp4]

/-- One entry pushed into the `suggestions` array of
`applyTechnicalPatterns`: tag, rationale, regex source. -/
structure PatternSuggestion where
  type : String
  suggestion : String
  patternSrc : String
deriving DecidableEq, Repr

/-- Result of `applyTechnicalPatterns`. -/
structure TechnicalResult where
  improvedText : String
  suggestions : List PatternSuggestion
deriving DecidableEq, Repr

/-- `applyTechnicalPatterns(text)` (source lines 87-103): each rule is
tested against the ORIGINAL text; for each match the rationale is recorded
and the replacement is applied to the working copy (replacements compose
left to right through the rule list). -/
def applyTechnicalPatterns (text : String) : TechnicalResult :=
  technicalPatterns.foldl
    (fun acc p =>
      if rxTest p.pat text.data then
        ⟨String.mk (rxReplace p.pat p.replacement.data acc.improvedText.data),
         acc.suggestions ++ [⟨"technical", p.suggestion, p.patSrc⟩]⟩
      else acc)
    ⟨text, []⟩

/-! ## Defensive JSON parsing (`parseAIResponse`, source lines 247-272)

`JSON.parse` is modelled by a fuel-indexed recursive-descent parser for
the JSON grammar (strings with the standard single-character escapes,
numbers with optional sign, fraction and exponent, arrays, objects,
`true`, `false`, `null`).  `\uXXXX` escapes are not modelled; no claim
exercises them. -/

inductive JsonVal where
  | jnull
  | jbool (b : Bool)
  | jnum (q : ℚ)
  | jstr (s : List Char)
  | jarr (xs : List JsonVal)
  | jobj (fields : List (List Char × JsonVal))

/-- JSON insignificant whitespace. -/
def jsonWsChar (c : Char) : Bool :=
  c = ' ' || c = '\t' || c = '\n' || c = '\r'

/-- Skip insignificant whitespace. -/
def skipJsonWs (s : List Char) : List Char := s.dropWhile jsonWsChar

/-- Parse the body of a JSON string after the opening quote; returns the
decoded characters and the rest of the input.  Raw control characters and
unsupported escapes are rejected, as `JSON.parse` rejects them. -/
def parseStrBody : List Char → List Char → Option (List Char × List Char)
  | acc, '"' :: rest => some (acc.reverse, rest)
  | acc, '\\' :: e :: rest =>
    if e = '"' then parseStrBody ('"' :: acc) rest
    else if e = '\\' then parseStrBody ('\\' :: acc) rest
    else if e = '/' then parseStrBody ('/' :: acc) rest
    else if e = 'b' then parseStrBody ('\x08' :: acc) rest
    else if e = 'f' then parseStrBody ('\x0c' :: acc) rest
    else if e = 'n' then parseStrBody ('\n' :: acc) rest
    else if e = 'r' then parseStrBody ('\r' :: acc) rest
    else if e = 't' then parseStrBody ('\t' :: acc) rest
    else none
  | acc, c :: rest =>
    if c.toNat < 32 then none else parseStrBody (c :: acc) rest
  | _, [] => none

/-- Digit test. -/
def isDigitCh (c : Char) : Bool := '0' ≤ c && c ≤ '9'

/-- Decimal value of a digit run. -/
def digitsToNat (ds : List Char) : Nat :=
  ds.foldl (fun n c => n * 10 + (c.toNat - 48)) 0

/-- Parse a JSON number (sign, integer part without leading zeros,
optional fraction, optional exponent). -/
def parseJsonNum (s : List Char) : Option (ℚ × List Char) :=
  let (neg, s1) := match s with
    | '-' :: r => (true, r)
    | _ => (false, s)
  let ip := s1.takeWhile isDigitCh
  let s2 := s1.dropWhile isDigitCh
  if ip.isEmpty then none
  else if ip.length > 1 ∧ ip.head? = some '0' then none
  else
    let (fp, s3) := match s2 with
      | '.' :: r => (r.takeWhile isDigitCh, r.dropWhile isDigitCh)
      | _ => ([], s2)
    if s2.head? = some '.' ∧ fp.isEmpty then none
    else
      let (hasExp, s4) := match s3 with
        | 'e' :: r => (true, r)
        | 'E' :: r => (true, r)
        | _ => (false, s3)
      if hasExp then
        let (eneg, s5) := match s4 with
          | '-' :: r => (true, r)
          | '+' :: r => (false, r)
          | _ => (false, s4)
        let ed := s5.takeWhile isDigitCh
        let s6 := s5.dropWhile isDigitCh
        if ed.isEmpty then none
        else
          let mant : ℚ := (digitsToNat ip : ℚ) + (digitsToNat fp : ℚ) / ((10 : ℚ) ^ fp.length)
          let ex : ℤ := if eneg then -(digitsToNat ed : ℤ) else (digitsToNat ed : ℤ)
          let v : ℚ := mant * (10 : ℚ) ^ ex
          some (if neg then -v else v, s6)
      else
        let mant : ℚ := (digitsToNat ip : ℚ) + (digitsToNat fp : ℚ) / ((10 : ℚ) ^ fp.length)
        some (if neg then -mant else mant, s3)

mutual

/-- Parse one JSON value (fuel-indexed). -/
def parseVal : Nat → List Char → Option (JsonVal × List Char)
  | 0, _ => none
  | fuel + 1, s =>
    match skipJsonWs s with
    | '{' :: r =>
      match skipJsonWs r with
      | '}' :: r2 => some (.jobj [], r2)
      | r2 => parseObjItems fuel r2 []
    | '[' :: r =>
      match skipJsonWs r with
      | ']' :: r2 => some (.jarr [], r2)
      | r2 => parseArrItems fuel r2 []
    | '"' :: r =>
      match parseStrBody [] r with
      | some (cs, rest) => some (.jstr cs, rest)
      | none => none
    | 't' :: 'r' :: 'u' :: 'e' :: r => some (.jbool true, r)
    | 'f' :: 'a' :: 'l' :: 's' :: 'e' :: r => some (.jbool false, r)
    | 'n' :: 'u' :: 'l' :: 'l' :: r => some (.jnull, r)
    | r =>
      match parseJsonNum r with
      | some (q, rest) => some (.jnum q, rest)
      | none => none

/-- Parse the members of a JSON object after the opening brace. -/
def parseObjItems : Nat → List Char → List (List Char × JsonVal) →
    Option (JsonVal × List Char)
  | 0, _, _ => none
  | fuel + 1, s, acc =>
    match skipJsonWs s with
    | '"' :: r =>
      match parseStrBody [] r with
      | some (key, r2) =>
        match skipJsonWs r2 with
        | ':' :: r3 =>
          match parseVal fuel r3 with
          | some (v, r4) =>
            match skipJsonWs r4 with
            | ',' :: r5 => parseObjItems fuel r5 (acc ++ [(key, v)])
            | '}' :: r5 => some (.jobj (acc ++ [(key, v)]), r5)
            | _ => none
          | none => none
        | _ => none
      | none => none
    | _ => none

/-- Parse the elements of a JSON array after the opening bracket. -/
def parseArrItems : Nat → List Char → List JsonVal → Option (JsonVal × List Char)
  | 0, _, _ => none
  | fuel + 1, s, acc =>
    match parseVal fuel s with
    | some (v, r) =>
      match skipJsonWs r with
      | ',' :: r2 => parseArrItems fuel r2 (acc ++ [v])
      | ']' :: r2 => some (.jarr (acc ++ [v]), r2)
      | _ => none
    | none => none

end

/-- `JSON.parse`: parse one value and require only whitespace to remain. -/
def jsonParse (s : List Char) : Option JsonVal :=
  match parseVal (2 * s.length + 4) s with
  | some (v, rest) => if (skipJsonWs rest).isEmpty then some v else none
  | none => none

/-! ## Remote Augmenter (`analyzeWithAI` / `parseAIResponse`,
source lines 169-272) -/

/-- The regex match `aiResponse.match(/\x7b[\s\S]*\x7d/)`: the `[\s\S]*`
is greedy, so the (single, non-global) match runs from the FIRST opening
brace to the LAST closing brace of the whole string, provided that brace
pair exists in that order. -/
def greedyJsonSpan (s : List Char) : Option (List Char) :=
  let t := s.dropWhile (fun c => !(c = '\x7b'))
  let u := (t.reverse.dropWhile (fun c => !(c = '\x7d'))).reverse
  if 2 ≤ u.length then some u else none

/-- The object returned by `parseAIResponse` on a successful parse
(source lines 253-260); `type: 'ai'`, `hasAI: true` are carried by the
constructor `AIResult.parsed` below.  The model types the payload fields:
`corrections`/`suggestions` keep the string elements of the parsed arrays,
`improvedText` the parsed string, `score` the parsed number (the claims
only exercise payloads of these shapes). -/
structure ParsedAI where
  corrections : List String
  suggestions : List String
  improvedText : String
  score : ℚ
deriving DecidableEq, Repr

/-- The union of values `analyzeWithAI`/`parseAIResponse` can return:
the raw clarity-issue array (guard or transport-failure path), a parsed
remote analysis (`type: 'ai'`, `hasAI: true`), or the fixed
"unavailable" fallback object (`type: 'basic'`, `hasAI: false`,
source lines 267-271). -/
inductive AIResult where
  | clarityOnly (issues : List ClarityIssue)
  | parsed (r : ParsedAI)
  | unavailable
deriving DecidableEq, Repr

/-- The single generic suggestion of the "unavailable" fallback
(source line 269). -/
def aiUnavailableMsg : String := "Análise de IA não disponível. Verifique a conexão."

/-- Last-wins field lookup on a parsed JSON object, as JavaScript
property access behaves when `JSON.parse` meets duplicate keys. -/
def getField (fs : List (List Char × JsonVal)) (k : String) : Option JsonVal :=
  fs.foldl (fun acc kv => if kv.1 = k.data then some kv.2 else acc) none

/-- JavaScript truthiness of a JSON value (objects and arrays are always
truthy; `0`, `""`, `false`, `null` are falsy). -/
def jsTruthy : JsonVal → Bool
  | .jnull => false
  | .jbool b => b
  | .jnum q => !(q = 0)
  | .jstr s => !s.isEmpty
  | .jarr _ => true
  | .jobj _ => true

/-- `parsed.f || []` for a sequence-of-strings field. -/
def fieldOrEmptyList (fs : List (List Char × JsonVal)) (k : String) : List String :=
  match getField fs k with
  | some v =>
    if jsTruthy v then
      match v with
      | .jarr xs => xs.filterMap (fun x => match x with | .jstr s => some (String.mk s) | _ => none)
      | _ => []
    else []
  | none => []

/-- `parsed.improvedText || ''`. -/
def fieldOrEmptyStr (fs : List (List Char × JsonVal)) (k : String) : String :=
  match getField fs k with
  | some (.jstr s) => String.mk s
  | _ => ""

/-- `parsed.score || 7`: a missing or falsy (in particular zero) score
defaults to 7. -/
def fieldOrScore7 (fs : List (List Char × JsonVal)) : ℚ :=
  match getField fs "score" with
  | some (.jnum q) => if q = 0 then 7 else q
  | _ => 7

/-- `parseAIResponse(aiResponse)` (source lines 247-272): regex-extract the
greedy first-brace-to-last-brace span, `JSON.parse` it, and default the
missing fields; on no match or parse failure return the fixed
"unavailable" fallback. -/
def parseAIResponse (aiResponse : String) : AIResult :=
  match greedyJsonSpan aiResponse.data with
  | some sub =>
    match jsonParse sub with
    | some (.jobj fs) =>
      .parsed ⟨fieldOrEmptyList fs "corrections", fieldOrEmptyList fs "suggestions",
               fieldOrEmptyStr fs "improvedText", fieldOrScore7 fs⟩
    | some _ =>
      .parsed ⟨[], [], "", 7⟩
    | none => .unavailable
  | none => .unavailable

/-- Modelled from the spec (§4.4): the spec describes the extraction as
"extracts the first balanced JSON object substring from the response
body".  This scans to the FIRST position at which the braces re-balance
after the first opening brace — the behaviour the spec's words describe,
stated here only to compare it against the source's `greedyJsonSpan`. -/
def balancedAux : List Char → Nat → List Char → Option (List Char)
  | [], _, _ => none
  | c :: rest, d, acc =>
    if c = '\x7b' then balancedAux rest (d + 1) (c :: acc)
    else if c = '\x7d' then
      if d = 1 then some ((c :: acc).reverse)
      else balancedAux rest (d - 1) (c :: acc)
    else balancedAux rest d (c :: acc)

/-- Modelled from the spec (§4.4): first balanced brace-delimited span. -/
def extractFirstBalanced (s : List Char) : Option (List Char) :=
  balancedAux (s.dropWhile (fun c => !(c = '\x7b'))) 0 []

/-- Modelled from the spec (§4.4): the parser that the spec's sentence
describes — extract the FIRST BALANCED object span, parse it, default the
missing fields, and fall back when no parseable object is found. -/
def parseAIResponseSpecBalanced (aiResponse : String) : AIResult :=
  match extractFirstBalanced aiResponse.data with
  | some sub =>
    match jsonParse sub with
    | some (.jobj fs) =>
      .parsed ⟨fieldOrEmptyList fs "corrections", fieldOrEmptyList fs "suggestions",
               fieldOrEmptyStr fs "improvedText", fieldOrScore7 fs⟩
    | some _ =>
      .parsed ⟨[], [], "", 7⟩
    | none => .unavailable
  | none => .unavailable

/-- The mutable state of the `AITextAssistant` instance relevant to the
claims: the configured credential and the single in-flight flag
(source lines 8 and 11). -/
structure AIState where
  apiKey : Option String
  isProcessing : Bool
deriving DecidableEq, Repr

/-- Truthiness of `this.apiKey` (`null` and the empty string are falsy). -/
def keyTruthy : Option String → Bool
  | none => false
  | some s => !s.isEmpty

/-- What the single outbound `fetch` would yield: a success response whose
assistant-message content is `body`, a non-success HTTP status, or a
transport failure / thrown exception. -/
inductive RemoteOutcome where
  | ok (body : String)
  | badStatus
  | netError
deriving DecidableEq, Repr

/-- The `try` block of `analyzeWithAI` (source lines 176-210): a
non-success status throws (line 203), a transport failure rejects, a
success response is parsed by `parseAIResponse` (which never throws). -/
def analyzeWithAITry (out : RemoteOutcome) : Except Unit AIResult :=
  match out with
  | .ok body => .ok (parseAIResponse body)
  | .badStatus => .error ()
  | .netError => .error ()

/-- The full result of one `analyzeWithAI` call: the returned value, the
instance state after the call, and whether an outbound request was
issued. -/
structure AWAOut where
  result : AIResult
  state : AIState
  requested : Bool
deriving DecidableEq, Repr

/-- `analyzeWithAI(text)` (source lines 169-217).  If the credential is
falsy or the in-flight flag is set, it immediately returns the local
clarity analysis without touching the flag or the network.  Otherwise it
sets the flag, issues the request, catches any failure by returning the
clarity analysis, and ALWAYS clears the flag in `finally` before
returning. -/
def analyzeWithAI (st : AIState) (text : String) (out : RemoteOutcome) : AWAOut :=
  if !(keyTruthy st.apiKey) || st.isProcessing then
    ⟨.clarityOnly (analyzeClarityBasic text), st, false⟩
  else
    let attempt := analyzeWithAITry out
    let result := match attempt with
      | .ok r => r
      | .error _ => .clarityOnly (analyzeClarityBasic text)
    ⟨result, ⟨st.apiKey, false⟩, true⟩

/-! ## Score Aggregator (`calculateOverallScore`, source lines 306-327) -/

/-- `Math.round`: round half toward positive infinity. -/
def jsRound (x : ℚ) : ℤ := Int.floor (x + 1 / 2)

/-- The per-severity penalty of the `switch` at source lines 314-318;
severities other than the three named ones subtract nothing. -/
def severityPenalty (s : String) : ℚ :=
  if s = "high" then 2 else if s = "medium" then 1 else if s = "low" then 1 / 2 else 0

/-- The local part of the score: start at 10, subtract 0.5 per spelling
correction, then the severity penalties in list order. -/
def localScore (sp : List SpellingCorrection) (cl : List ClarityIssue) : ℚ :=
  cl.foldl (fun s i => s - severityPenalty i.severity)
    (10 - (sp.length : ℚ) * (1 / 2))

/-- `calculateOverallScore(spelling, clarity, aiAnalysis)` (source lines
306-327).  `ai` is `aiAnalysis?.score`; the `if (aiAnalysis?.score)` guard
is truthiness, so a present-but-zero score is NOT averaged (the source
never produces a zero score: `parsed.score || 7`).  Rounding to one
decimal happens before the clamp to [1, 10]. -/
def calculateOverallScore (sp : List SpellingCorrection) (cl : List ClarityIssue)
    (ai : Option ℚ) : ℚ :=
  let s1 := localScore sp cl
  let s2 := match ai with
    | some q => if q ≠ 0 then (s1 + q) / 2 else s1
    | none => s1
  max 1 (min 10 ((jsRound (s2 * 10) : ℚ) / 10))

/-! ## Top-level analysis (`analyzeText`, source lines 277-301) -/

/-- `aiAnalysis?.score` as seen by `calculateOverallScore`: only the
parsed-remote variant carries a `score` property. -/
def aiScoreOf : Option AIResult → Option ℚ
  | some (.parsed r) => some r.score
  | _ => none

/-- `!!aiAnalysis?.hasAI`: only the parsed-remote variant has a truthy
`hasAI`. -/
def hasAIOf : Option AIResult → Bool
  | some (.parsed _) => true
  | _ => false

/-- The spec's `RemoteAnalysis.succeeded` reading of a result
(`hasAI` in the source). -/
def succeededOf : AIResult → Bool
  | .parsed _ => true
  | _ => false

/-- The spec's `RemoteAnalysis.origin` reading of a result
(`model` for `type: 'ai'`, `fallback` otherwise). -/
def originOf : AIResult → String
  | .parsed _ => "model"
  | _ => "fallback"

/-- The aggregate result of `analyzeText` (source lines 293-300). -/
structure AnalysisResult where
  spelling : List SpellingCorrection
  technical : TechnicalResult
  clarity : List ClarityIssue
  ai : Option AIResult
  hasAI : Bool
  overallScore : ℚ
deriving DecidableEq, Repr

/-- `analyzeText(text, context)` (source lines 277-301): the three local
analyzers always run; the remote augmenter runs only when the credential
is truthy and the text is longer than 10 characters (the `context` only
feeds the prompt text, which no claim observes, so it is not modelled).
Returns the aggregate and the instance state after the call. -/
def analyzeText (st : AIState) (text : String) (out : RemoteOutcome) :
    AnalysisResult × AIState :=
  let basicSpelling := checkBasicSpelling text
  let technicalAnalysis := applyTechnicalPatterns text
  let clarityIssues := analyzeClarityBasic text
  let o : Option AIResult × AIState :=
    if keyTruthy st.apiKey && decide (10 < text.length) then
      let a := analyzeWithAI st text out
      (some a.result, a.state)
    else (none, st)
  ({ spelling := basicSpelling, technical := technicalAnalysis,
     clarity := clarityIssues, ai := o.1, hasAI := hasAIOf o.1,
     overallScore := calculateOverallScore basicSpelling clarityIssues (aiScoreOf o.1) },
   o.2)

/-! ## Suggestion Consolidator (`generateSuggestions`, source lines 357-381) -/

/-- `analysis.ai?.suggestions` as spread by `generateSuggestions`: the
parsed variant carries its (possibly empty, always truthy) array, the
"unavailable" fallback carries its single generic suggestion, and the
raw clarity array has no `suggestions` property. -/
def aiSuggestionsOf : Option AIResult → List String
  | some (.parsed r) => r.suggestions
  | some .unavailable => [aiUnavailableMsg]
  | _ => []

/-- `generateSuggestions(analysis)` (source lines 357-381): spelling
summary (when any), pattern rationales, clarity rationales, remote
suggestions, truncated to the first 3. -/
def generateSuggestions (a : AnalysisResult) : List String :=
  let l1 : List String :=
    if 0 < a.spelling.length then
      ["Correções ortográficas: " ++ toString a.spelling.length ++ " encontradas"]
    else []
  let l2 : List String :=
    if 0 < a.technical.suggestions.length then
      a.technical.suggestions.map (fun s => s.suggestion)
    else []
  let l3 : List String :=
    if 0 < a.clarity.length then a.clarity.map (fun i => i.suggestion) else []
  let l4 : List String := aiSuggestionsOf a.ai
  (((l1 ++ l2) ++ l3) ++ l4).take 3

/-! ## Theorems -/

/- Batteries marks the rational operations `@[irreducible]`; re-allow
unfolding them so that concrete scores evaluate by `decide`. -/
attribute [local semireducible] Rat.mul Rat.inv Rat.add Rat.sub

theorem one_le_clamp (x : ℚ) : 1 ≤ max 1 (min 10 x) := le_max_left 1 _

theorem clamp_le_ten (x : ℚ) : max 1 (min 10 x) ≤ 10 :=
  max_le (by norm_num) (min_le_left _ _)

theorem clamp_tenth (k0 : ℤ) :
    ∃ k : ℤ, max 1 (min 10 ((k0 : ℚ) / 10)) = (k : ℚ) / 10 := by
  rcases le_total ((k0 : ℚ) / 10) 1 with h | h
  · refine ⟨10, ?_⟩
    rw [min_eq_right (h.trans (by norm_num)), max_eq_left h]
    norm_num
  · rcases le_total ((k0 : ℚ) / 10) 10 with h2 | h2
    · exact ⟨k0, by rw [min_eq_right h2, max_eq_right h]⟩
    · refine ⟨100, ?_⟩
      rw [min_eq_left h2, max_eq_right (by norm_num : (1 : ℚ) ≤ 10)]
      norm_num

theorem calcScore_bounds (sp : List SpellingCorrection) (cl : List ClarityIssue)
    (ai : Option ℚ) :
    1 ≤ calculateOverallScore sp cl ai ∧ calculateOverallScore sp cl ai ≤ 10 ∧
      ∃ k : ℤ, calculateOverallScore sp cl ai = (k : ℚ) / 10 := by
  unfold calculateOverallScore
  exact ⟨one_le_clamp _, clamp_le_ten _, clamp_tenth _⟩

/-- C1: for every input text and every combination of analyzer results
(spelling corrections, clarity issues, optional remote score), the
`overallScore` computed by `calculateOverallScore` — and hence the one
returned by the top-level `analyzeText` — lies in [1, 10] and is an exact
multiple of one tenth (rounded to exactly one decimal place). -/
theorem overallScore_in_range_one_decimal :
    (∀ (sp : List SpellingCorrection) (cl : List ClarityIssue) (ai : Option ℚ),
      1 ≤ calculateOverallScore sp cl ai ∧ calculateOverallScore sp cl ai ≤ 10 ∧
        ∃ k : ℤ, calculateOverallScore sp cl ai = (k : ℚ) / 10)
    ∧ ∀ (st : AIState) (text : String) (out : RemoteOutcome),
      1 ≤ (analyzeText st text out).1.overallScore ∧
        (analyzeText st text out).1.overallScore ≤ 10 ∧
        ∃ k : ℤ, (analyzeText st text out).1.overallScore = (k : ℚ) / 10 :=
  ⟨fun sp cl ai => calcScore_bounds sp cl ai,
   fun _ text _ => calcScore_bounds (checkBasicSpelling text) (analyzeClarityBasic text) _⟩

theorem foldl_sub_eq (cl : List ClarityIssue) (a : ℚ) :
    cl.foldl (fun s i => s - severityPenalty i.severity) a
      = a - (cl.map (fun i => severityPenalty i.severity)).sum := by
  induction cl generalizing a with
  | nil => simp
  | cons i rest ih =>
    simp only [List.foldl_cons, List.map_cons, List.sum_cons, ih]
    ring

/-- C4: the Score Aggregator starts from 10, subtracts 0.5 per spelling
correction and the per-severity clarity penalties (high 2, medium 1,
low 0.5); exactly when a (non-zero, and every score the parser produces is
non-zero) remote score is present, the final value is the arithmetic mean
of the locally computed score and the remote score, then rounded to one
decimal and clamped to [1, 10]; with no remote score the local value alone
is rounded and clamped. -/
theorem score_aggregator_mean_iff_remote (sp : List SpellingCorrection)
    (cl : List ClarityIssue) (q : ℚ) (hq : q ≠ 0) :
    calculateOverallScore sp cl (some q)
      = max 1 (min 10 ((jsRound ((localScore sp cl + q) / 2 * 10) : ℚ) / 10))
    ∧ calculateOverallScore sp cl none
      = max 1 (min 10 ((jsRound (localScore sp cl * 10) : ℚ) / 10))
    ∧ localScore sp cl
      = 10 - (sp.length : ℚ) * (1 / 2)
        - (cl.map (fun i => severityPenalty i.severity)).sum := by
  refine ⟨?_, ?_, ?_⟩
  · simp [calculateOverallScore, hq]
  · simp [calculateOverallScore]
  · simp [localScore, foldl_sub_eq]

/-- Witness for C4 at the concrete input `sp = []`, `cl = []`, `q = 9`:
the remote score is averaged in ((10 + 9) / 2 = 9.5). -/
theorem score_aggregator_mean_iff_remote_witness :
    (9 : ℚ) ≠ 0
    ∧ calculateOverallScore [] [] (some 9)
        = max 1 (min 10 ((jsRound ((localScore [] [] + 9) / 2 * 10) : ℚ) / 10))
    ∧ calculateOverallScore [] [] (some 9) = 19 / 2
    ∧ calculateOverallScore [] [] none = 10 :=
  ⟨by norm_num, (score_aggregator_mean_iff_remote [] [] 9 (by norm_num)).1,
   by simp only [calculateOverallScore, localScore, List.foldl_nil, List.length_nil]; norm_num [jsRound, min_def, max_def],
   by simp only [calculateOverallScore, localScore, List.foldl_nil, List.length_nil]; norm_num [jsRound, min_def, max_def]⟩

/-- C2: if the Remote Augmenter is invoked while the in-flight flag is set,
or while no (truthy) access credential is configured, it immediately
returns the Clarity Diagnostics result as the local-only fallback
(`origin = fallback`, no remote label), issues no remote request, and
leaves the state unchanged — so a second analysis call arriving while the
flag is set resolves via the local-only fallback and never adds a second
concurrent remote call. -/
theorem singleFlight_guard_fallback (st : AIState) (text : String)
    (out : RemoteOutcome) (h : st.isProcessing = true ∨ keyTruthy st.apiKey = false) :
    analyzeWithAI st text out
      = ⟨.clarityOnly (analyzeClarityBasic text), st, false⟩
    ∧ originOf (analyzeWithAI st text out).result = "fallback"
    ∧ succeededOf (analyzeWithAI st text out).result = false := by
  have hg : (!(keyTruthy st.apiKey) || st.isProcessing) = true := by
    rcases h with h | h <;> simp [h]
  rw [analyzeWithAI, if_pos hg]
  exact ⟨rfl, rfl, rfl⟩

/-- Witness for C2: a call arriving while the flag is set (state
`⟨some "k", true⟩`) resolves locally — here on the short text "abc" the
fallback is the single length issue — without a request and without
touching the state. -/
theorem singleFlight_guard_fallback_witness :
    (AIState.mk (some "k") true).isProcessing = true
    ∧ analyzeWithAI ⟨some "k", true⟩ "abc" (.ok "x")
        = ⟨.clarityOnly [lengthIssue], ⟨some "k", true⟩, false⟩ :=
  ⟨rfl,
   (singleFlight_guard_fallback ⟨some "k", true⟩ "abc" (.ok "x") (Or.inl rfl)).1.trans
     (by decide)⟩

/-- C8: whenever `analyzeWithAI` actually sets the in-flight flag (that is,
whenever its guard passes: truthy credential and flag currently clear),
the flag is clear again in the returned state, on every exit path — a
parsed success, a non-success status (thrown), and a transport failure
(thrown) alike. -/
theorem inflight_flag_cleared_on_exit (st : AIState) (text : String)
    (out : RemoteOutcome) (hk : keyTruthy st.apiKey = true)
    (hp : st.isProcessing = false) :
    (analyzeWithAI st text out).state.isProcessing = false := by
  have hg : (!(keyTruthy st.apiKey) || st.isProcessing) = false := by
    simp [hk, hp]
  rw [analyzeWithAI, if_neg (by simp [hg])]

/-- Witness for C8 on the exception path: with a configured credential and
a clear flag, a transport failure still returns with the flag clear. -/
theorem inflight_flag_cleared_on_exit_witness :
    keyTruthy (some "k") = true
    ∧ (AIState.mk (some "k") false).isProcessing = false
    ∧ (analyzeWithAI ⟨some "k", false⟩ "abc" .netError).state.isProcessing = false :=
  ⟨rfl, rfl, inflight_flag_cleared_on_exit ⟨some "k", false⟩ "abc" .netError rfl rfl⟩

/-- C6: when the remote call returns a non-success status, the remote
result of the analysis is the clarity fallback (`succeeded = false`,
`origin = fallback`), and the `overallScore` is computed purely from the
local signals — no averaging against any remote score. -/
theorem badStatus_fallback_no_averaging (st : AIState) (text : String)
    (hk : keyTruthy st.apiKey = true) (hp : st.isProcessing = false)
    (hl : 10 < text.length) :
    (analyzeText st text .badStatus).1.ai
      = some (.clarityOnly (analyzeClarityBasic text))
    ∧ (analyzeText st text .badStatus).1.hasAI = false
    ∧ succeededOf (.clarityOnly (analyzeClarityBasic text)) = false
    ∧ originOf (.clarityOnly (analyzeClarityBasic text)) = "fallback"
    ∧ (analyzeText st text .badStatus).1.overallScore
      = calculateOverallScore (checkBasicSpelling text) (analyzeClarityBasic text) none := by
  have hawa : analyzeWithAI st text .badStatus
      = ⟨.clarityOnly (analyzeClarityBasic text), ⟨st.apiKey, false⟩, true⟩ := by
    rw [analyzeWithAI, if_neg (by simp [hk, hp])]
    rfl
  have hguard : (keyTruthy st.apiKey && decide (10 < text.length)) = true := by
    simp [hk, hl]
  simp only [analyzeText, hguard, if_true, hawa]
  refine ⟨?_, ?_, ?_, ?_, ?_⟩ <;> first | rfl | trivial

/-- Witness for C6 at the concrete state `⟨some "k", false⟩` and the
12-character text "aaaaaaaaaaaa". -/
theorem badStatus_fallback_no_averaging_witness :
    keyTruthy (some "k") = true
    ∧ (AIState.mk (some "k") false).isProcessing = false
    ∧ 10 < ("aaaaaaaaaaaa" : String).length
    ∧ (analyzeText ⟨some "k", false⟩ "aaaaaaaaaaaa" .badStatus).1.ai
        = some (.clarityOnly (analyzeClarityBasic "aaaaaaaaaaaa"))
    ∧ (analyzeText ⟨some "k", false⟩ "aaaaaaaaaaaa" .badStatus).1.hasAI = false :=
  ⟨rfl, rfl, by decide,
   (badStatus_fallback_no_averaging ⟨some "k", false⟩ "aaaaaaaaaaaa" rfl rfl (by decide)).1,
   (badStatus_fallback_no_averaging ⟨some "k", false⟩ "aaaaaaaaaaaa" rfl rfl (by decide)).2.1⟩

theorem dropWhile_append_all {p : Char → Bool} {l1 l2 : List Char}
    (h : ∀ c ∈ l1, p c = true) :
    (l1 ++ l2).dropWhile p = l2.dropWhile p := by
  induction l1 with
  | nil => simp
  | cons a as ih =>
    rw [List.cons_append, List.dropWhile_cons_of_pos (h a (by simp))]
    exact ih (fun c hc => h c (by simp [hc]))

theorem dropWhile_head_neg {p : Char → Bool} {l : List Char} {c : Char}
    (h : l.head? = some c) (hc : p c = false) : l.dropWhile p = l := by
  cases l with
  | nil => simp at h
  | cons a as =>
    obtain rfl : a = c := by simpa using h
    rw [List.dropWhile_cons_of_neg (by simp [hc])]

theorem greedyJsonSpan_wrap (pre body post : List Char)
    (hpre : ∀ c ∈ pre, ¬ c = '\x7b') (hpost : ∀ c ∈ post, ¬ c = '\x7d')
    (hh : body.head? = some '\x7b') (hl : body.getLast? = some '\x7d') :
    greedyJsonSpan (pre ++ body ++ post) = some body := by
  have hlen : 2 ≤ body.length := by
    match body, hh, hl with
    | [c], hh, hl =>
      simp only [List.head?_cons, Option.some.injEq] at hh
      simp only [List.getLast?_singleton, Option.some.injEq] at hl
      subst hh
      exact absurd hl (by decide)
    | c :: d :: rest, _, _ => simp
  have ht : (pre ++ body ++ post).dropWhile (fun c => !(c = '\x7b')) = body ++ post := by
    rw [List.append_assoc, dropWhile_append_all (fun c hc => by simp [hpre c hc])]
    have hhead : (body ++ post).head? = some '\x7b' := by
      cases body with
      | nil => simp at hh
      | cons a as => simpa using hh
    exact dropWhile_head_neg hhead (by simp)
  have hu : ((body ++ post).reverse.dropWhile (fun c => !(c = '\x7d'))).reverse = body := by
    rw [List.reverse_append, dropWhile_append_all
      (fun c hc => by simp [hpost c (List.mem_reverse.mp hc)])]
    rw [dropWhile_head_neg (by simpa [← List.getLast?_eq_head?_reverse] using hl) (by simp)]
    exact List.reverse_reverse body
  rw [greedyJsonSpan]
  simp only [ht, hu]
  rw [if_pos hlen]

/-- C3 counterexample: for the body `'{"a": 1} and {"b": 2}'` the first
balanced JSON object substring is `'{"a": 1}'`, which parses successfully
and (as the claim predicts for it) would default every missing field —
but the source's greedy regex grabs from the first `{` to the LAST `}`,
the grabbed span is not valid JSON, and `parseAIResponse` returns the
"unavailable" fallback instead. -/
theorem parseAIResponse_not_first_balanced_cex :
    extractFirstBalanced ("\x7b\"a\": 1\x7d and \x7b\"b\": 2\x7d" : String).data
      = some ("\x7b\"a\": 1\x7d" : String).data
    ∧ parseAIResponseSpecBalanced "\x7b\"a\": 1\x7d and \x7b\"b\": 2\x7d"
      = .parsed ⟨[], [], "", 7⟩
    ∧ parseAIResponse "\x7b\"a\": 1\x7d and \x7b\"b\": 2\x7d" = .unavailable
    ∧ (AIResult.unavailable ≠ .parsed ⟨[], [], "", 7⟩) :=
  ⟨by decide, by decide, by decide, by decide⟩

/-- C3 (amended): the parser extracts the GREEDY span from the first `{`
to the last `}` of the body (so a prose prefix without `{`, and a suffix
without `}`, are tolerated — not an arbitrary prose wrapper), parses it,
and defaults missing fields to the empty sequence (corrections,
suggestions), the empty string (improvedText) and 7 (score); in
particular, for the body
`'Here is the result: {"score": 9, "suggestions": ["ok"]}'` the result
has score 9, suggestions `["ok"]`, empty corrections and empty
improvedText. -/
theorem parseAIResponse_greedy_extraction :
    (∀ (pre body post : String),
      (∀ c ∈ pre.data, ¬ c = '\x7b') → (∀ c ∈ post.data, ¬ c = '\x7d') →
      body.data.head? = some '\x7b' → body.data.getLast? = some '\x7d' →
      parseAIResponse (pre ++ body ++ post) = parseAIResponse body)
    ∧ parseAIResponse "Here is the result: \x7b\"score\": 9, \"suggestions\": [\"ok\"]\x7d"
      = .parsed ⟨[], ["ok"], "", 9⟩ := by
  constructor
  · intro pre body post hpre hpost hh hl
    have h1 : greedyJsonSpan (pre ++ body ++ post).data = some body.data := by
      rw [String.data_append, String.data_append]
      exact greedyJsonSpan_wrap pre.data body.data post.data hpre hpost hh hl
    have h2 : greedyJsonSpan body.data = some body.data := by
      have := greedyJsonSpan_wrap [] body.data [] (by simp) (by simp) hh hl
      simpa using this
    rw [parseAIResponse, parseAIResponse, h1, h2]
  · decide

/-- Witness for C3 (amended) at a concrete prose-wrapped body: the prefix
has no `{`, the suffix has no `}`, and the result equals that of the bare
object body. -/
theorem parseAIResponse_greedy_extraction_witness :
    (∀ c ∈ ("Result: " : String).data, ¬ c = '\x7b')
    ∧ (∀ c ∈ (" done" : String).data, ¬ c = '\x7d')
    ∧ ("\x7b\"score\": 8\x7d" : String).data.head? = some '\x7b'
    ∧ ("\x7b\"score\": 8\x7d" : String).data.getLast? = some '\x7d'
    ∧ parseAIResponse ("Result: " ++ "\x7b\"score\": 8\x7d" ++ " done")
        = parseAIResponse "\x7b\"score\": 8\x7d"
    ∧ parseAIResponse "\x7b\"score\": 8\x7d" = .parsed ⟨[], [], "", 8⟩ :=
  ⟨by decide, by decide, by decide, by decide,
   parseAIResponse_greedy_extraction.1 "Result: " "\x7b\"score\": 8\x7d" " done"
     (by decide) (by decide) (by decide) (by decide),
   by decide⟩

theorem spellAux_mem_fwd (c : SpellingCorrection) :
    ∀ (ws : List (List Char)) (i : Nat), c ∈ spellAux i ws →
      i ≤ c.position
      ∧ ws[c.position - i]? = some c.original.data
      ∧ spellLookup (cleanWord c.original.data) = some c.suggestion.data
      ∧ c.suggestion.data ≠ []
      ∧ c.suggestion.data ≠ cleanWord c.original.data
      ∧ c.type = "spelling" := by
  intro ws
  induction ws with
  | nil => intro i h; simp [spellAux] at h
  | cons w rest ih =>
    intro i h
    rcases hlook : spellLookup (cleanWord w) with _ | v
    · simp only [spellAux, hlook] at h
      obtain ⟨hle, hget, hrest⟩ := ih (i + 1) h
      refine ⟨by omega, ?_, hrest⟩
      have : c.position - i = (c.position - (i + 1)) + 1 := by omega
      rw [this, List.getElem?_cons_succ]
      exact hget
    · simp only [spellAux, hlook] at h
      by_cases hcond : v ≠ [] ∧ v ≠ cleanWord w
      · rw [if_pos hcond] at h
        rcases List.mem_cons.mp h with heq | htail
        · subst heq
          refine ⟨le_refl _, ?_, ?_, hcond.1, hcond.2, rfl⟩
          · simp
          · simpa using hlook
        · obtain ⟨hle, hget, hrest⟩ := ih (i + 1) htail
          refine ⟨by omega, ?_, hrest⟩
          have : c.position - i = (c.position - (i + 1)) + 1 := by omega
          rw [this, List.getElem?_cons_succ]
          exact hget
      · rw [if_neg hcond] at h
        obtain ⟨hle, hget, hrest⟩ := ih (i + 1) h
        refine ⟨by omega, ?_, hrest⟩
        have : c.position - i = (c.position - (i + 1)) + 1 := by omega
        rw [this, List.getElem?_cons_succ]
        exact hget

/-- C5 counterexample: for the input "Quebrado" the sole whitespace token,
as it appeared in the input, is "Quebrado"; but the emitted correction's
`original` field is the lower-cased "quebrado" — the source lower-cases
the whole text before splitting, so case is NOT preserved. -/
theorem checkBasicSpelling_case_not_preserved_cex :
    splitWs ("Quebrado" : String).data = [("Quebrado" : String).data]
    ∧ checkBasicSpelling "Quebrado" = [⟨"quebrado", "danificado", 0, "spelling"⟩]
    ∧ ("quebrado" : String) ≠ "Quebrado" :=
  ⟨by decide, by decide, by decide⟩

/-- C5 (amended): every correction emitted by the Lexical Corrector
satisfies: its `original` field is the LOWER-CASED whitespace token at its
`position` (punctuation preserved, case folded — not the token as it
appeared); the dictionary value of the token's normalised form (lower-
cased, non-word characters stripped) exists and differs from that
normalised form — so self-mapping entries never produce a correction. -/
theorem checkBasicSpelling_characterization (text : String)
    (c : SpellingCorrection) (h : c ∈ checkBasicSpelling text) :
    (splitWs (jsLower text.data))[c.position]? = some c.original.data
    ∧ spellLookup (cleanWord c.original.data) = some c.suggestion.data
    ∧ c.suggestion.data ≠ cleanWord c.original.data
    ∧ c.type = "spelling" := by
  obtain ⟨-, hget, hlook, -, hne, hty⟩ :=
    spellAux_mem_fwd c (splitWs (jsLower text.data)) 0 h
  simpa using ⟨hget, hlook, hne, hty⟩

/-- Witness for C5 (amended) at the concrete input "Quebrado": the emitted
correction sits at token position 0, its `original` is the lower-cased
token, and the dictionary maps "quebrado" to the differing "danificado". -/
theorem checkBasicSpelling_characterization_witness :
    (⟨"quebrado", "danificado", 0, "spelling"⟩ : SpellingCorrection)
      ∈ checkBasicSpelling "Quebrado"
    ∧ ((splitWs (jsLower ("Quebrado" : String).data))[0]?
          = some ("quebrado" : String).data
        ∧ spellLookup (cleanWord ("quebrado" : String).data)
          = some ("danificado" : String).data
        ∧ ("danificado" : String).data ≠ cleanWord ("quebrado" : String).data
        ∧ ("spelling" : String) = "spelling") :=
  ⟨by decide,
   checkBasicSpelling_characterization "Quebrado"
     ⟨"quebrado", "danificado", 0, "spelling"⟩ (by decide)⟩

theorem map_if_nonempty {α β : Type} (l : List α) (f : α → β) :
    (if 0 < l.length then l.map f else []) = l.map f := by
  cases l <;> simp

/-- C7: for every analysis aggregate, the consolidated suggestion list
equals the first 3 entries of the sequence built in the fixed priority
order — one spelling-count summary line if any spelling corrections
exist, then every matched pattern rule's rationale, then every clarity
issue's rationale in list order, then every suggestion carried by the
remote-analysis value — and in particular it never has more than 3
entries. -/
theorem suggestions_priority_order_capped (a : AnalysisResult) :
    generateSuggestions a
      = ((if 0 < a.spelling.length then
            ["Correções ortográficas: " ++ toString a.spelling.length ++ " encontradas"]
          else [])
         ++ a.technical.suggestions.map (fun s => s.suggestion)
         ++ a.clarity.map (fun i => i.suggestion)
         ++ aiSuggestionsOf a.ai).take 3
    ∧ (generateSuggestions a).length ≤ 3 := by
  constructor
  · rw [generateSuggestions]
    rw [map_if_nonempty, map_if_nonempty]
  · rw [generateSuggestions]
    exact (List.length_take_le 3 _)

/-- C9: on any text in which none of the four rewrite rules' patterns
match, the Pattern Rewriter returns the input text identically unchanged
together with an empty match list. -/
theorem pattern_rewriter_id_on_clean (text : String)
    (h : ∀ p ∈ technicalPatterns, rxTest p.pat text.data = false) :
    applyTechnicalPatterns text = ⟨text, []⟩ := by
  have h1 := h tp1 (by simp [technicalPatterns])
  have h2 := h tp2 (by simp [technicalPatterns])
  have h3 := h tp3 (by simp [technicalPatterns])
  have h4 := h tp4 (by simp [technicalPatterns])
  simp [applyTechnicalPatterns, technicalPatterns, h1, h2, h3, h4]

/-- Witness for C9 at the concrete pattern-free text "Tudo certo.". -/
theorem pattern_rewriter_id_on_clean_witness :
    (∀ p ∈ technicalPatterns, rxTest p.pat ("Tudo certo." : String).data = false)
    ∧ applyTechnicalPatterns "Tudo certo." = ⟨"Tudo certo.", []⟩ :=
  ⟨by decide, pattern_rewriter_id_on_clean "Tudo certo." (by decide)⟩

theorem any_ite_block (c : Prop) [Decidable c] (x : ClarityIssue)
    (p : ClarityIssue → Bool) :
    ((if c then [x] else []).any p) = (decide c && p x) := by
  by_cases h : c <;> simp [h]

theorem any_ite_block_neg (c : Prop) [Decidable c] (x : ClarityIssue)
    (p : ClarityIssue → Bool) :
    ((if c then [] else [x]).any p) = (!(decide c) && p x) := by
  by_cases h : c <;> simp [h]

/-- C10: the vague-wording clarity check matches by substring, not by
whole token: the medium-severity vague issue appears in the clarity list
exactly when the lower-cased text contains one of the five vague words
anywhere — including embedded inside a longer word, as in "compromisso"
(which contains "isso"); it is absent otherwise, as for "perfeito". -/
theorem vague_check_substring_semantics :
    (∀ text : String,
      ((analyzeClarityBasic text).any
          (fun i => i.type == "vague" && i.severity == "medium"))
        = hasVagueWords text)
    ∧ hasVagueWords "compromisso" = true
    ∧ ((analyzeClarityBasic "compromisso").any (fun i => i.type == "vague")) = true
    ∧ hasVagueWords "perfeito" = false
    ∧ ((analyzeClarityBasic "perfeito").any (fun i => i.type == "vague")) = false := by
  refine ⟨?_, by decide, by decide, by decide, by decide⟩
  intro text
  rw [analyzeClarityBasic]
  simp only [List.any_append, any_ite_block, any_ite_block_neg]
  simp [lengthIssue, punctuationIssue, vagueIssue, repetitionIssue]
